import Mathlib

/-!
Verification of the jsoncons value-conversion engine
(`jsoncons/reflect/json_conv_traits.hpp` and
`jsoncons/reflect/reflect_traits_gen.hpp`).

The development shallowly embeds the Document Value (`basic_json`) and the
`json_conv_traits` Conversion Entries that the claims are about:
the integer and `jsoncons::optional` specializations, the three container
tiers (back insertable, insertable only, front insertable), `std::array`,
`std::valarray`, the map specializations, `std::tuple`, `std::variant`,
the macro generated aggregate / enumeration / polymorphic traits.
Each definition cites the source location it embeds.
-/

namespace JsonconsConv

/-- Semantic tag refining a Document Value (jsoncons `semantic_tag`). -/
inductive SemanticTag where
  | noTag
  | bigint
  | base16
  | epochSecond
  | epochMilli
  | epochNano
  deriving DecidableEq, Repr

/-- The Document Value: jsoncons `basic_json` restricted to the payload kinds the
claims exercise (null / bool / int64 / uint64 / string / array / object), each
carrying a semantic tag.  Doubles and byte strings are not needed by any claim. -/
inductive JValue where
  | null (tag : SemanticTag)
  | boolean (b : Bool) (tag : SemanticTag)
  | int64 (n : Int) (tag : SemanticTag)
  | uint64 (n : Nat) (tag : SemanticTag)
  | str (s : String) (tag : SemanticTag)
  | array (items : List JValue) (tag : SemanticTag)
  | object (members : List (String × JValue)) (tag : SemanticTag)

/-- `basic_json::is_null()`. -/
def JValue.isNull : JValue → Bool
  | .null _ => true
  | _ => false

/-- `basic_json::is_object()`. -/
def JValue.isObject : JValue → Bool
  | .object _ _ => true
  | _ => false

/-- `basic_json::is_array()`. -/
def JValue.isArray : JValue → Bool
  | .array _ _ => true
  | _ => false

/-- `basic_json::size()`: element count of an array or object, 0 otherwise. -/
def JValue.size : JValue → Nat
  | .array items _ => items.length
  | .object ms _ => ms.length
  | _ => 0

/-- The elements of an array value (empty for every other kind). -/
def JValue.elems : JValue → List JValue
  | .array items _ => items
  | _ => []

/-- `basic_json::find(key)` on an object: the first member with the given name. -/
def JValue.findMember (j : JValue) (key : String) : Option JValue :=
  match j with
  | .object ms _ => (ms.find? (fun m => m.1 == key)).map (fun m => m.2)
  | _ => Option.none

/-- Error kinds of `conv_errc` used by the embedded entries. -/
inductive ConvErrc where
  | conversionFailed
  | missingRequiredMember
  | expectedObject
  | notVector
  | notArray
  | notMap
  | notPair
  | notVariant
  | notInteger
  | notString
  deriving DecidableEq, Repr

/-- A `conversion_result` error: error code plus the `message_arg` context string. -/
structure ConvErr where
  code : ConvErrc
  context : String
  deriving DecidableEq, Repr

deriving instance DecidableEq for Except

/-- Boolean success test on a conversion result (C++ `if (result)`). -/
def isOkE {α : Type} : Except ConvErr α → Bool
  | .ok _ => true
  | .error _ => false

/-- Decimal digit accumulation over a character list (the loop of
`jsoncons::utility::dec_to_integer`): a non digit character rejects. -/
def parseDecNatLoop : List Char → Nat → Option Nat
  | [], acc => some acc
  | c :: cs, acc =>
    if c.isDigit then parseDecNatLoop cs (acc * 10 + (c.toNat - 48))
    else Option.none

/-- Parse a non empty all digit character list as a natural number. -/
def parseDecNat : List Char → Option Nat
  | [] => Option.none
  | c :: cs => parseDecNatLoop (c :: cs) 0

/-- Parse a decimal integer with an optional leading minus sign. -/
def parseDecInt (s : String) : Option Int :=
  match s.data with
  | [] => Option.none
  | c :: cs =>
    if c = '-' then (parseDecNat cs).map (fun n => -(n : Int))
    else (parseDecNat (c :: cs)).map (fun n => (n : Int))

/-- A Conversion Entry: the `is` / `try_as` / `to_json` triple of one
`json_conv_traits` specialization. -/
structure ConvEntry (α : Type) where
  is : JValue → Bool
  tryAs : JValue → Except ConvErr α
  toJson : α → JValue

/-! ### Integer entries (json_conv_traits.hpp lines 189-240)

The integer specialization (width at most 64 bits) delegates `is` and `try_as`
to `basic_json::is_integer<T>` / `try_as_integer<T>` and builds
`Json(val, semantic_tag::none)` on `to_json`. -/

/-- Modelled from the spec: `basic_json::try_as_integer<T>` is not under `src/`
(the integer `json_conv_traits` specialization delegates to it).  The spec says
integers of width at most 64 bits map directly, decoding accepts any numeric
payload width and fails only when the decoded value cannot fit the native
target width (range check, not truncation), and a string payload is coerced by
decimal parsing, failing with a conversion error when not parseable. -/
def tryAsIntegerSigned (lo hi : Int) : JValue → Except ConvErr Int
  | .int64 n _ => if lo ≤ n ∧ n ≤ hi then .ok n else .error ⟨.notInteger, ""⟩
  | .uint64 n _ =>
      if lo ≤ (n : Int) ∧ (n : Int) ≤ hi then .ok (n : Int) else .error ⟨.notInteger, ""⟩
  | .str s _ =>
      match parseDecInt s with
      | some n => if lo ≤ n ∧ n ≤ hi then .ok n else .error ⟨.notInteger, ""⟩
      | Option.none => .error ⟨.conversionFailed, ""⟩
  | _ => .error ⟨.notInteger, ""⟩

/-- Modelled from the spec: `basic_json::try_as_integer<T>` for an unsigned
target type, as for `tryAsIntegerSigned` (range check against `[0, hi]`). -/
def tryAsIntegerUnsigned (hi : Nat) : JValue → Except ConvErr Nat
  | .int64 n _ =>
      if 0 ≤ n ∧ n ≤ (hi : Int) then .ok n.toNat else .error ⟨.notInteger, ""⟩
  | .uint64 n _ => if n ≤ hi then .ok n else .error ⟨.notInteger, ""⟩
  | .str s _ =>
      match parseDecNat s.data with
      | some n => if n ≤ hi then .ok n else .error ⟨.notInteger, ""⟩
      | Option.none => .error ⟨.conversionFailed, ""⟩
  | _ => .error ⟨.notInteger, ""⟩

/-- The signed integer Conversion Entry (json_conv_traits.hpp lines 191-217):
`is`/`try_as` are the range checked integer extraction, `to_json` stores the
value as an `int64_value` with `semantic_tag::none`.  `lo` and `hi` are the
bounds of the native type `T`. -/
def signedIntegerTraits (lo hi : Int) : ConvEntry Int where
  is j := isOkE (tryAsIntegerSigned lo hi j)
  tryAs := tryAsIntegerSigned lo hi
  toJson v := .int64 v .noTag

/-- The unsigned integer Conversion Entry (json_conv_traits.hpp lines 191-217):
`to_json` stores the value as a `uint64_value` with `semantic_tag::none`. -/
def unsignedIntegerTraits (hi : Nat) : ConvEntry Nat where
  is j := isOkE (tryAsIntegerUnsigned hi j)
  tryAs := tryAsIntegerUnsigned hi
  toJson v := .uint64 v .noTag

/-! ### jsoncons::optional entry (json_conv_traits.hpp lines 1357-1390) -/

/-- The `jsoncons::optional<T>` Conversion Entry built over the entry of the
inner type `T`: `is` accepts null or an inner match; `try_as` maps null to the
empty optional and otherwise runs the inner `try_as`; `to_json` of an engaged
optional converts the payload and of an empty optional produces `Json::null()`. -/
def optionalTraits {α : Type} (e : ConvEntry α) : ConvEntry (Option α) where
  is j := j.isNull || e.is j
  tryAs j :=
    if j.isNull then .ok Option.none
    else
      match e.tryAs j with
      | .error err => .error err
      | .ok v => .ok (some v)
  toJson v :=
    match v with
    | some x => e.toJson x
    | Option.none => .null .noTag

/-! ### Container entries

Four `try_as` algorithms over a source array, each parameterized by the element
conversion `eTryAs` (the element type `value_type` try_as). -/

/-- Element loop of the back insertable non byte container `try_as`
(json_conv_traits.hpp lines 570-593): elements are converted in order and
appended with `push_back`; the first failing element aborts the whole
conversion with that element's own error code and `message_arg`. -/
def backInsertableLoop {α : Type} (eTryAs : JValue → Except ConvErr α) :
    List JValue → Except ConvErr (List α)
  | [] => .ok []
  | x :: xs =>
    match eTryAs x with
    | .error e => .error ⟨e.code, e.context⟩
    | .ok v =>
      match backInsertableLoop eTryAs xs with
      | .error e => .error e
      | .ok vs => .ok (v :: vs)

/-- `try_as` of the back insertable (non byte) container specialization
(json_conv_traits.hpp lines 570-593): a non array source fails with
`conv_errc::not_vector`. -/
def backInsertableTryAs {α : Type} (eTryAs : JValue → Except ConvErr α)
    (j : JValue) : Except ConvErr (List α) :=
  match j with
  | .array items _ => backInsertableLoop eTryAs items
  | _ => .error ⟨.notVector, ""⟩

/-- Element loop of the byte valued back insertable container `try_as` on an
array source (json_conv_traits.hpp lines 600-650): a failing element is
replaced by the generic `conv_errc::not_vector`.  (The byte string and string
source forms of that specialization are outside the scope of the claims.) -/
def byteBackInsertableLoop {α : Type} (eTryAs : JValue → Except ConvErr α) :
    List JValue → Except ConvErr (List α)
  | [] => .ok []
  | x :: xs =>
    match eTryAs x with
    | .error _ => .error ⟨.notVector, ""⟩
    | .ok v =>
      match byteBackInsertableLoop eTryAs xs with
      | .error e => .error e
      | .ok vs => .ok (v :: vs)

/-- `try_as` of the insertable but not back insertable container specialization
(json_conv_traits.hpp lines 732-753): builds by `insert`; a failing element is
replaced by the generic `conv_errc::not_vector`; a non array source fails with
`conv_errc::not_vector`. -/
def insertableTryAs {α : Type} (eTryAs : JValue → Except ConvErr α)
    (j : JValue) : Except ConvErr (List α) :=
  match j with
  | .array items _ => byteBackInsertableLoop eTryAs items
  | _ => .error ⟨.notVector, ""⟩

/-- Element loop of the front insertable container `try_as`
(json_conv_traits.hpp lines 813-838): the source array is iterated in reverse
(`rbegin` to `rend`) and each converted element is prepended with
`push_front`; a failing element is replaced by `conv_errc::not_vector`. -/
def frontInsertableLoop {α : Type} (eTryAs : JValue → Except ConvErr α) :
    List JValue → List α → Except ConvErr (List α)
  | [], acc => .ok acc
  | x :: xs, acc =>
    match eTryAs x with
    | .error _ => .error ⟨.notVector, ""⟩
    | .ok v => frontInsertableLoop eTryAs xs (v :: acc)

/-- `try_as` of the container specialization that is only front insertable
(json_conv_traits.hpp lines 786-839). -/
def frontInsertableTryAs {α : Type} (eTryAs : JValue → Except ConvErr α)
    (j : JValue) : Except ConvErr (List α) :=
  match j with
  | .array items _ => frontInsertableLoop eTryAs items.reverse []
  | _ => .error ⟨.notVector, ""⟩

/-- Element loop shared by the `std::array` and `std::valarray` `try_as`
(json_conv_traits.hpp lines 893-908 and 1519-1538): elements `j[i]` are
converted in index order; a failing element is replaced by the generic
`conv_errc::not_array`. -/
def indexedArrayLoop {α : Type} (eTryAs : JValue → Except ConvErr α) :
    List JValue → Except ConvErr (List α)
  | [] => .ok []
  | x :: xs =>
    match eTryAs x with
    | .error _ => .error ⟨.notArray, ""⟩
    | .ok v =>
      match indexedArrayLoop eTryAs xs with
      | .error e => .error e
      | .ok vs => .ok (v :: vs)

/-- `is` of the `std::array<E, N>` specialization (json_conv_traits.hpp lines
877-892): an array of length exactly `N` all of whose elements satisfy the
element `is`. -/
def stdArrayIs (eIs : JValue → Bool) (N : Nat) (j : JValue) : Bool :=
  j.isArray && j.size == N && j.elems.all eIs

/-- `try_as` of the `std::array<E, N>` specialization (json_conv_traits.hpp
lines 894-910): fails with `conv_errc::not_array` when `j.size() != N`,
otherwise converts the `N` elements in index order. -/
def stdArrayTryAs {α : Type} (eTryAs : JValue → Except ConvErr α) (N : Nat)
    (j : JValue) : Except ConvErr (List α) :=
  if j.size ≠ N then .error ⟨.notArray, ""⟩
  else indexedArrayLoop eTryAs j.elems

/-- `try_as` of the `std::valarray<T>` specialization (json_conv_traits.hpp
lines 1519-1540): a non array source fails with `conv_errc::not_array`. -/
def valarrayTryAs {α : Type} (eTryAs : JValue → Except ConvErr α)
    (j : JValue) : Except ConvErr (List α) :=
  match j with
  | .array items _ => indexedArrayLoop eTryAs items
  | _ => .error ⟨.notArray, ""⟩

/-- Specification helper (not an embedding): convert a list of elements in
source order, propagating the first element error unchanged.  Used to state
order and propagation properties of the container loops. -/
def mapConvert {α : Type} (eTryAs : JValue → Except ConvErr α) :
    List JValue → Except ConvErr (List α)
  | [] => .ok []
  | x :: xs =>
    match eTryAs x with
    | .error e => .error e
    | .ok v =>
      match mapConvert eTryAs xs with
      | .error e => .error e
      | .ok vs => .ok (v :: vs)

/-! ### Macro generated aggregate entry
(reflect_traits_gen.hpp, `json_traits_helper::try_get_member` lines 2177-2191,
`JSONCONS_N_MEMBER_AS_LAST` lines 2463-2470, `JSONCONS_MEMBER_TRAITS_BASE`
`try_as` lines 2644-2658).

All member types of one aggregate are embedded with a common value type `V`;
a field is its member name paired with the member type try_as.  The decoded
class instance is the list of per field states in declared order:
`some v` for an assigned member, `Option.none` for a defaulted one. -/

/-- One declared member: the JSON member name and the member type `try_as`. -/
structure MemberField (V : Type) where
  name : String
  conv : JValue → Except ConvErr V

/-- An aggregate declared with `JSONCONS_N_MEMBER_TRAITS(ClassType,
NumMandatoryParams, ...)`: class name, declared field list, and the mandatory
count split point.  `JSONCONS_ALL_MEMBER_TRAITS` is the case
`numMandatory = fields.length`. -/
structure AggSpec (V : Type) where
  className : String
  fields : List (MemberField V)
  numMandatory : Nat

/-- `json_traits_helper::try_get_member` (reflect_traits_gen.hpp lines
2177-2191): an absent member yields `missing_required_member`; a present member
whose conversion fails yields `conversion_failed` (the member error code is
discarded); both with empty `message_arg`. -/
def tryGetMember {V : Type} (conv : JValue → Except ConvErr V) (j : JValue)
    (key : String) : Except ConvErr V :=
  match j.findMember key with
  | Option.none => .error ⟨.missingRequiredMember, ""⟩
  | some jv =>
    match conv jv with
    | .error _ => .error ⟨.conversionFailed, ""⟩
    | .ok v => .ok v

/-- The member loop of the generated aggregate `try_as`
(`JSONCONS_N_MEMBER_AS_LAST`, reflect_traits_gen.hpp lines 2463-2470), over
the declared fields with `idx = num_params - Count` counting from 0: a
successful `try_get_member` assigns the member; a failure on a field with
`idx < num_mandatory_params2`, or any failure other than
`missing_required_member`, aborts with that error code and the context
`ClassName ++ ": " ++ fieldName`; a missing optional member is skipped
(left defaulted). -/
def aggTryAsLoop {V : Type} (className : String) (numMandatory : Nat)
    (j : JValue) : Nat → List (MemberField V) → List (Option V) →
    Except ConvErr (List (Option V))
  | _, [], acc => .ok acc.reverse
  | idx, f :: rest, acc =>
    match tryGetMember f.conv j f.name with
    | .ok v => aggTryAsLoop className numMandatory j (idx + 1) rest (some v :: acc)
    | .error e =>
      if idx < numMandatory then
        .error ⟨e.code, className ++ ": " ++ f.name⟩
      else if e.code ≠ .missingRequiredMember then
        .error ⟨e.code, className ++ ": " ++ f.name⟩
      else
        aggTryAsLoop className numMandatory j (idx + 1) rest (Option.none :: acc)

/-- The generated aggregate `try_as` (`JSONCONS_MEMBER_TRAITS_BASE`,
reflect_traits_gen.hpp lines 2644-2658): a non object source fails with
`expected_object` and the class name; otherwise members are processed in
declared order.  (When `num_params == num_mandatory_params2` the generated
code uses `JSONCONS_ALL_MEMBER_AS`, whose behavior coincides with the loop
below with every index mandatory.) -/
def aggTryAs {V : Type} (spec : AggSpec V) (j : JValue) :
    Except ConvErr (List (Option V)) :=
  if ¬ j.isObject then .error ⟨.expectedObject, spec.className⟩
  else aggTryAsLoop spec.className spec.numMandatory j 0 spec.fields []

/-- A declared field passes at index `idx` when its member is present and
converts, or the field is optional (`numMandatory ≤ idx`) and the member is
absent.  This is the condition under which the generated member loop proceeds
past the field. -/
def fieldPasses {V : Type} (numMandatory idx : Nat) (j : JValue)
    (f : MemberField V) : Prop :=
  (∃ v, tryGetMember f.conv j f.name = .ok v) ∨
    (numMandatory ≤ idx ∧
      tryGetMember f.conv j f.name = .error ⟨.missingRequiredMember, ""⟩)

/-! ### Throwing code paths (claim about totality of try_as)

The outcome of running a C++ `try_as` body: a returned value, a returned typed
error, or an exception escaping the call. -/

/-- Exceptions that can escape the embedded `try_as` bodies. -/
inductive CppExn where
  | serError
  | outOfRange
  | notAnObjectExn
  | notAnArrayExn
  deriving DecidableEq, Repr

/-- Outcome of a C++ call that may throw. -/
inductive CppOutcome (α : Type) where
  | ok (val : α)
  | err (e : ConvErr)
  | thrown (exn : CppExn)
  deriving DecidableEq, Repr

/-- Modelled from the spec: `basic_json::as<T>` is not under `src/`; section
4.1 of the spec gives `as<T>() -> T` as the throwing extraction ("throws/aborts
on failure").  We model it as the entry try_as with a failure surfacing as a
thrown `ser_error`. -/
def asOrThrow {α : Type} (tryAs : JValue → Except ConvErr α) (j : JValue) :
    CppOutcome α :=
  match tryAs j with
  | .ok v => .ok v
  | .error _ => .thrown .serError

/-- Modelled from the spec: `basic_json::object_range()` is not under `src/`;
the Document Value exposes type checked access that throws on a mismatched
discriminant (section 4.1), so requesting the member range of a non object
value throws. -/
def objectRangeOrThrow (j : JValue) : CppOutcome (List (String × JValue)) :=
  match j with
  | .object ms _ => .ok ms
  | _ => .thrown .notAnObjectExn

/-- Modelled from the spec: `basic_json::operator[](std::size_t)` (the `j[i]`
used by the tuple helper) is not under `src/`; it is the type checked indexed
access `at(i)`, which throws on a non array value or an out of range index
(section 4.1: typed access throws on failure). -/
def atIndexOrThrow (j : JValue) (i : Nat) : CppOutcome JValue :=
  match j with
  | .array items _ =>
    match items.get? i with
    | some x => .ok x
    | Option.none => .thrown .outOfRange
  | _ => .thrown .notAnArrayExn

/-- Member loop of the map specialization whose key type is not constructible
from a pointer and size (json_conv_traits.hpp lines 1034-1048): the member
name is wrapped as a string Document Value and converted with the key type
`try_as` (a failure is returned as that typed error), while the member value
is extracted with the throwing `as<mapped_type>()`. -/
def mapSlowLoop {κ μ : Type} (keyConv : JValue → Except ConvErr κ)
    (mappedConv : JValue → Except ConvErr μ) :
    List (String × JValue) → CppOutcome (List (κ × μ))
  | [] => .ok []
  | (key, val) :: rest =>
    match keyConv (.str key .noTag) with
    | .error e => .err e
    | .ok k =>
      match asOrThrow mappedConv val with
      | .thrown w => .thrown w
      | .err e => .err e
      | .ok m =>
        match mapSlowLoop keyConv mappedConv rest with
        | .thrown w => .thrown w
        | .err e => .err e
        | .ok ms => .ok ((k, m) :: ms)

/-- `try_as` of the map specialization whose key type is not constructible from
a pointer and size (json_conv_traits.hpp lines 1033-1048): the body iterates
`val.object_range()` with no `is_object` pre check. -/
def mapSlowTryAs {κ μ : Type} (keyConv : JValue → Except ConvErr κ)
    (mappedConv : JValue → Except ConvErr μ) (j : JValue) :
    CppOutcome (List (κ × μ)) :=
  match objectRangeOrThrow j with
  | .thrown w => .thrown w
  | .err e => .err e
  | .ok ms => mapSlowLoop keyConv mappedConv ms

/-- The position loop of `tuple_detail::json_tuple_helper::try_as`
(json_conv_traits.hpp lines 1108-1125) as run by the `std::tuple`
specialization `try_as` (lines 1162-1177): position `i` reads `j[i]` with no
arity or array check, converts it with the element try_as, and on failure
stores only the error code (the element `message_arg` is dropped).  The
heterogeneous element types share the embedded value type `V`. -/
def tupleHelperLoop {V : Type} (j : JValue) :
    Nat → List (JValue → Except ConvErr V) → CppOutcome (List V)
  | _, [] => .ok []
  | i, conv :: rest =>
    match atIndexOrThrow j i with
    | .thrown w => .thrown w
    | .err e => .err e
    | .ok jv =>
      match conv jv with
      | .error e => .err ⟨e.code, ""⟩
      | .ok v =>
        match tupleHelperLoop j (i + 1) rest with
        | .thrown w => .thrown w
        | .err e => .err e
        | .ok vs => .ok (v :: vs)

/-- `try_as` of the `std::tuple<E...>` specialization (json_conv_traits.hpp
lines 1162-1177): runs the helper from position 0. -/
def tupleTryAs {V : Type} (convs : List (JValue → Except ConvErr V))
    (j : JValue) : CppOutcome (List V) :=
  tupleHelperLoop j 0 convs

/-! ### Enumeration entries
(`JSONCONS_ENUM_TRAITS_BASE`, reflect_traits_gen.hpp lines 3203-3311, and
`JSONCONS_ENUM_NAME_TRAITS`, lines 3324-3456).

The declared value table pairs each registered enumerator value (as `Int`,
with `enum_type()` the value 0) with its string name. -/

/-- The `reflect_type_properties` value table of a registered enumeration. -/
abbrev EnumTable := List (Int × String)

/-- `std::find_if(first, last, item.first == enum_type()) == last`: no table
entry carries the value initialized enumerator value 0. -/
def noZeroValue (table : EnumTable) : Bool :=
  table.all (fun e => !(e.1 == 0))

/-- `std::find_if(first, last, item.second == s)`: the first table entry whose
name is `s`. -/
def findByName (table : EnumTable) (s : String) : Option (Int × String) :=
  table.find? (fun e => e.2 == s)

/-- `std::find_if(first, last, item.first == val)`: the first table entry whose
value is `v`. -/
def findByValue (table : EnumTable) (v : Int) : Option (Int × String) :=
  table.find? (fun e => e.1 == v)

/-- `is` of `JSONCONS_ENUM_TRAITS_BASE` (reflect_traits_gen.hpp lines
3227-3246): a non string value is rejected; the empty string is accepted when
no table entry carries the value 0; otherwise the string must be a name in the
table. -/
def enumIs (table : EnumTable) (j : JValue) : Bool :=
  match j with
  | .str s _ =>
    if s == "" && noZeroValue table then true
    else (findByName table s).isSome
  | _ => false

/-- `try_as` of `JSONCONS_ENUM_TRAITS_BASE` (reflect_traits_gen.hpp lines
3247-3277): first re-runs `is` and fails with `conversion_failed` (context the
enumeration type name) when it rejects; then the empty string with the zero
value absent from the table yields `enum_type()`; then a name lookup; an
unmatched empty string yields `enum_type()`, any other unmatched string fails
with `conversion_failed`. -/
def enumTryAs (table : EnumTable) (name : String) (j : JValue) :
    Except ConvErr Int :=
  if ¬ enumIs table j then .error ⟨.conversionFailed, name⟩
  else
    match j with
    | .str s _ =>
      if s == "" && noZeroValue table then .ok 0
      else
        match findByName table s with
        | some e => .ok e.1
        | Option.none =>
          if s == "" then .ok 0 else .error ⟨.conversionFailed, name⟩
    | _ => .error ⟨.conversionFailed, name⟩

/-- `try_as` of `JSONCONS_ENUM_NAME_TRAITS` (reflect_traits_gen.hpp lines
3372-3400): same lookup sequence but with no `is` pre check; a non string
value fails with `conversion_failed`. -/
def enumNameTryAs (table : EnumTable) (name : String) (j : JValue) :
    Except ConvErr Int :=
  match j with
  | .str s _ =>
    if s == "" && noZeroValue table then .ok 0
    else
      match findByName table s with
      | some e => .ok e.1
      | Option.none =>
        if s == "" then .ok 0 else .error ⟨.conversionFailed, name⟩
  | _ => .error ⟨.conversionFailed, name⟩

/-- `to_json` of `JSONCONS_ENUM_TRAITS_BASE` (reflect_traits_gen.hpp lines
3278-3301): a value found in the table emits its name; an unlisted value equal
to `enum_type()` emits the empty string; any other unlisted value throws
`conv_error(conversion_failed, EnumType)`, modelled as the error branch. -/
def enumToJson (table : EnumTable) (name : String) (v : Int) :
    Except ConvErr JValue :=
  match findByValue table v with
  | some e => .ok (.str e.2 .noTag)
  | Option.none =>
    if v == 0 then .ok (.str "" .noTag)
    else .error ⟨.conversionFailed, name⟩

/-- `encode_traits::try_encode` of `JSONCONS_ENUM_TRAITS_BASE`
(reflect_traits_gen.hpp lines 3302-3340): a value found in the table emits its
name as a string value; an unlisted value equal to `enum_type()` emits the
empty string; any other unlisted value sets `ec = conv_errc::conversion_failed`
and emits nothing. -/
def enumTryEncode (table : EnumTable) (v : Int) : Except ConvErrc String :=
  match findByValue table v with
  | some e => .ok e.2
  | Option.none => if v == 0 then .ok "" else .error .conversionFailed

/-! ### std::variant entry
(`variant_detail::is_variant` / `as_variant`, json_conv_traits.hpp lines
1566-1617, and the `std::variant<VariantTypes...>` specialization lines
1639-1671).  The alternatives share the embedded value type `V`; a decoded
variant is the pair of the selected alternative index and its payload. -/

/-- One variant alternative: its `is` and `try_as`. -/
structure AltEntry (V : Type) where
  is : JValue → Bool
  tryAs : JValue → Except ConvErr V

/-- `variant_detail::is_variant` (json_conv_traits.hpp lines 1568-1589):
the alternatives are tried in declared order. -/
def isVariant {V : Type} : List (AltEntry V) → JValue → Bool
  | [], _ => false
  | a :: rest, j => if a.is j then true else isVariant rest j

/-- `variant_detail::as_variant` (json_conv_traits.hpp lines 1591-1617), with
the running alternative index made explicit: the first alternative whose `is`
accepts is selected; if its `try_as` fails the whole conversion fails with
`conv_errc::not_variant`; if no alternative accepts, `not_variant`. -/
def asVariantLoop {V : Type} : List (AltEntry V) → Nat → JValue →
    Except ConvErr (Nat × V)
  | [], _, _ => .error ⟨.notVariant, ""⟩
  | a :: rest, i, j =>
    if a.is j then
      match a.tryAs j with
      | .error _ => .error ⟨.notVariant, ""⟩
      | .ok v => .ok (i, v)
    else asVariantLoop rest (i + 1) j

/-- `try_as` of the `std::variant` specialization (json_conv_traits.hpp lines
1655-1658). -/
def asVariant {V : Type} (alts : List (AltEntry V)) (j : JValue) :
    Except ConvErr (Nat × V) :=
  asVariantLoop alts 0 j

/-! ### Polymorphic base entry
(`JSONCONS_POLYMORPHIC_TRAITS`, reflect_traits_gen.hpp lines 3844-3893).

A pointee behind the base pointer is `some (rt, v)` with `rt` encoding its
dynamic (runtime) type, or `Option.none` for the null pointer.  Each declared
derived class supplies its `try_as`, its `dynamic_cast` test on a runtime
type, and its `to_json`. -/

/-- One declared derived class of a `JSONCONS_POLYMORPHIC_TRAITS` base. -/
structure DerivedEntry (V : Type) where
  tryAs : JValue → Except ConvErr V
  isRuntimeType : Nat → Bool
  toJson : V → JValue

/-- Loop of the polymorphic `try_as` (reflect_traits_gen.hpp lines 3824-3834
and 3858-3862): the declared derived classes are tried in order; the first
whose `try_as` succeeds is wrapped (the index records which); exhaustion
yields the null pointer as a success. -/
def polyTryAsLoop {V : Type} : List (DerivedEntry V) → Nat → JValue →
    Except ConvErr (Option (Nat × V))
  | [], _, _ => .ok Option.none
  | d :: rest, i, j =>
    match d.tryAs j with
    | .ok v => .ok (some (i, v))
    | .error _ => polyTryAsLoop rest (i + 1) j

/-- `try_as` of the polymorphic pointer specializations (reflect_traits_gen.hpp
lines 3857-3862 and 3878-3882): a non object source yields the null pointer as
a success. -/
def polyTryAs {V : Type} (ds : List (DerivedEntry V)) (j : JValue) :
    Except ConvErr (Option (Nat × V)) :=
  if ¬ j.isObject then .ok Option.none
  else polyTryAsLoop ds 0 j

/-- Loop of the polymorphic `to_json` (`JSONCONS_POLYMORPHIC_TO_JSON`,
reflect_traits_gen.hpp lines 3839-3841): `dynamic_cast` against each declared
derived class in order, emitting via the first match. -/
def polyToJsonLoop {V : Type} : List (DerivedEntry V) → Nat → V → JValue
  | [], _, _ => .null .noTag
  | d :: rest, rt, v =>
    if d.isRuntimeType rt then d.toJson v else polyToJsonLoop rest rt v

/-- `to_json` of the polymorphic pointer specializations (reflect_traits_gen.hpp
lines 3864-3868 and 3883-3887): a null pointer emits `Json::null()`; an
unlisted dynamic type falls through every cast and also emits `Json::null()`. -/
def polyToJson {V : Type} (ds : List (DerivedEntry V))
    (p : Option (Nat × V)) : JValue :=
  match p with
  | Option.none => .null .noTag
  | some (rt, v) => polyToJsonLoop ds rt v

/-! ### Helper lemmas -/

/-- `mapConvert` distributes over append when both halves convert. -/
theorem mapConvert_append_ok {α : Type} (e : JValue → Except ConvErr α)
    (l₁ l₂ : List JValue) (v₁ v₂ : List α)
    (h₁ : mapConvert e l₁ = .ok v₁) (h₂ : mapConvert e l₂ = .ok v₂) :
    mapConvert e (l₁ ++ l₂) = .ok (v₁ ++ v₂) := by
  induction l₁ generalizing v₁ with
  | nil =>
    simp only [mapConvert] at h₁
    cases h₁
    simpa using h₂
  | cons x xs ih =>
    simp only [mapConvert, List.cons_append] at h₁ ⊢
    cases hx : e x with
    | error err => rw [hx] at h₁; cases h₁
    | ok v =>
      rw [hx] at h₁
      cases hxs : mapConvert e xs with
      | error err => rw [hxs] at h₁; cases h₁
      | ok vs =>
        rw [hxs] at h₁
        cases h₁
        simp [ih vs hxs]

/-- A list whose elements all convert keeps converting after reversal, with the
results reversed. -/
theorem mapConvert_reverse_ok {α : Type} (e : JValue → Except ConvErr α)
    (l : List JValue) (vs : List α) (h : mapConvert e l = .ok vs) :
    mapConvert e l.reverse = .ok vs.reverse := by
  induction l generalizing vs with
  | nil =>
    simp only [mapConvert] at h
    cases h
    simp [mapConvert]
  | cons x xs ih =>
    simp only [mapConvert] at h
    cases hx : e x with
    | error err => rw [hx] at h; cases h
    | ok v =>
      rw [hx] at h
      cases hxs : mapConvert e xs with
      | error err => rw [hxs] at h; cases h
      | ok ws =>
        rw [hxs] at h
        cases h
        have hsingle : mapConvert e [x] = .ok [v] := by
          simp [mapConvert, hx]
        simpa using mapConvert_append_ok e xs.reverse [x] ws.reverse [v]
          (ih ws hxs) hsingle

/-- The front insertable loop over a fully converting list prepends the
converted values, reversed, onto the accumulator. -/
theorem frontInsertableLoop_ok {α : Type} (e : JValue → Except ConvErr α)
    (l : List JValue) (vs : List α) (h : mapConvert e l = .ok vs) :
    ∀ acc : List α, frontInsertableLoop e l acc = .ok (vs.reverse ++ acc) := by
  induction l generalizing vs with
  | nil =>
    intro acc
    simp only [mapConvert] at h
    cases h
    simp [frontInsertableLoop]
  | cons x xs ih =>
    intro acc
    simp only [mapConvert] at h
    cases hx : e x with
    | error err => rw [hx] at h; cases h
    | ok v =>
      rw [hx] at h
      cases hxs : mapConvert e xs with
      | error err => rw [hxs] at h; cases h
      | ok ws =>
        rw [hxs] at h
        cases h
        simp only [frontInsertableLoop, hx]
        rw [ih ws hxs (v :: acc)]
        simp

/-! ### Claim C8: fixed size array arity -/

/-- C8.  For every element type, every size `N`, and every source Document
Value that is an array whose length differs from `N`, the `std::array<E, N>`
entry `try_as` fails with a conversion error (`conv_errc::not_array`, no
truncation and no padding) and its `is` returns false. -/
theorem std_array_arity {α : Type} (eIs : JValue → Bool)
    (eTryAs : JValue → Except ConvErr α) (N : Nat) (items : List JValue)
    (tag : SemanticTag) (h : items.length ≠ N) :
    stdArrayTryAs eTryAs N (.array items tag) = .error ⟨.notArray, ""⟩
    ∧ stdArrayIs eIs N (.array items tag) = false := by
  constructor
  · simp [stdArrayTryAs, JValue.size, h]
  · simp [stdArrayIs, JValue.size, JValue.isArray, h]

/-- Witness for C8 at `N = 5` against a source array of length 4. -/
theorem std_array_arity_witness :
    stdArrayTryAs (tryAsIntegerSigned (-100) 100) 5
        (.array [.int64 1 .noTag, .int64 2 .noTag, .int64 3 .noTag,
          .int64 4 .noTag] .noTag) = .error ⟨.notArray, ""⟩
    ∧ stdArrayIs (fun _ => true) 5
        (.array [.int64 1 .noTag, .int64 2 .noTag, .int64 3 .noTag,
          .int64 4 .noTag] .noTag) = false :=
  std_array_arity (fun _ => true) (tryAsIntegerSigned (-100) 100) 5
    [.int64 1 .noTag, .int64 2 .noTag, .int64 3 .noTag, .int64 4 .noTag]
    .noTag (by decide)

/-! ### Claim C9: front insertable container order -/

/-- C9.  For a container that is only front insertable, `try_as` of a source
array all of whose elements convert successfully builds the result by
iterating the source in reverse and prepending, so the resulting container
holds the converted elements in source order. -/
theorem front_insertable_order {α : Type} (e : JValue → Except ConvErr α)
    (items : List JValue) (tag : SemanticTag) (vs : List α)
    (h : mapConvert e items = .ok vs) :
    frontInsertableTryAs e (.array items tag) = .ok vs := by
  simp only [frontInsertableTryAs]
  rw [frontInsertableLoop_ok e items.reverse vs.reverse
    (mapConvert_reverse_ok e items vs h) []]
  simp

/-- Witness for C9 on the source array `[1, 2, 3]`. -/
theorem front_insertable_order_witness :
    frontInsertableTryAs (tryAsIntegerSigned (-100) 100)
        (.array [.int64 1 .noTag, .int64 2 .noTag, .int64 3 .noTag] .noTag)
      = .ok [1, 2, 3] :=
  front_insertable_order (tryAsIntegerSigned (-100) 100)
    [.int64 1 .noTag, .int64 2 .noTag, .int64 3 .noTag] .noTag [1, 2, 3] rfl

/-! ### Claim C10: encoding an unlisted enumerator value -/

/-- C10.  Encoding an enumerator value absent from the declared name table
produces the empty string when the value equals the value initialized
enumerator `enum_type()` (the value 0); for any other unlisted value,
`to_json` throws `conv_error(conversion_failed, EnumType)` and
`encode_traits::try_encode` sets `conv_errc::conversion_failed` without
emitting a value. -/
theorem enum_encode_unlisted (table : EnumTable) (name : String) (v : Int)
    (h : findByValue table v = Option.none) :
    (v = 0 → enumToJson table name v = .ok (.str ("") .noTag)
       ∧ enumTryEncode table v = .ok ("" : String))
    ∧ (v ≠ 0 → enumToJson table name v = .error ⟨.conversionFailed, name⟩
       ∧ enumTryEncode table v = .error .conversionFailed) := by
  constructor
  · intro hv
    subst hv
    simp [enumToJson, enumTryEncode, h]
  · intro hv
    simp [enumToJson, enumTryEncode, h, hv]

/-- Witness for C10 against the table mapping only the value 1, at the
unlisted values 0 and 2. -/
theorem enum_encode_unlisted_witness :
    (enumToJson [(1, "one")] ("E") 0 = .ok (.str ("") .noTag)
      ∧ enumTryEncode [(1, "one")] 0 = .ok ("" : String))
    ∧ (enumToJson [(1, "one")] ("E") 2 = .error ⟨.conversionFailed, ("E")⟩
      ∧ enumTryEncode [(1, "one")] 2 = .error .conversionFailed) := by
  constructor
  · exact (enum_encode_unlisted [(1, "one")] ("E") 0 (by decide)).1 rfl
  · exact (enum_encode_unlisted [(1, "one")] ("E") 2 (by decide)).2 (by decide)

/-! ### Claim C1: round trip law -/

/-- C1.  Round trip law for the cited Conversion Entries.  For the integer
specialization (signed or unsigned, width at most 64 bits), every value of the
native range converts to a Document Value and extracts back unchanged.  For
the `jsoncons::optional<T>` specialization, the round trip lifts from any
inner entry whose round trip holds on a domain `P` and whose `to_json` never
produces null on that domain: the empty optional round trips through
`Json::null()` and an engaged optional through the inner entry. -/
theorem roundtrip_integer_and_optional :
    (∀ lo hi v : Int, lo ≤ v → v ≤ hi →
      (signedIntegerTraits lo hi).tryAs ((signedIntegerTraits lo hi).toJson v)
        = .ok v)
    ∧ (∀ hi v : Nat, v ≤ hi →
      (unsignedIntegerTraits hi).tryAs ((unsignedIntegerTraits hi).toJson v)
        = .ok v)
    ∧ (∀ (α : Type) (e : ConvEntry α) (P : α → Prop),
      (∀ x, P x → e.tryAs (e.toJson x) = .ok x) →
      (∀ x, P x → (e.toJson x).isNull = false) →
      ∀ v : Option α, (∀ x, v = some x → P x) →
        (optionalTraits e).tryAs ((optionalTraits e).toJson v) = .ok v) := by
  refine ⟨?_, ?_, ?_⟩
  · intro lo hi v h1 h2
    simp [signedIntegerTraits, tryAsIntegerSigned, h1, h2]
  · intro hi v h
    simp [unsignedIntegerTraits, tryAsIntegerUnsigned, h]
  · intro α e P hrt hnn v hv
    cases v with
    | none => simp [optionalTraits, JValue.isNull]
    | some x =>
      have hx : P x := hv x rfl
      simp [optionalTraits, hnn x hx, hrt x hx]

/-- Witness for C1: the signed entry on the range `[0, 10]` at the value 5, the
unsigned entry on `[0, 255]` at 7, and the optional entry over the signed
entry at `some 5`. -/
theorem roundtrip_integer_and_optional_witness :
    (signedIntegerTraits 0 10).tryAs ((signedIntegerTraits 0 10).toJson 5)
        = .ok 5
    ∧ (unsignedIntegerTraits 255).tryAs ((unsignedIntegerTraits 255).toJson 7)
        = .ok 7
    ∧ (optionalTraits (signedIntegerTraits 0 10)).tryAs
        ((optionalTraits (signedIntegerTraits 0 10)).toJson (some 5))
        = .ok (some 5) := by
  refine ⟨?_, ?_, ?_⟩
  · exact roundtrip_integer_and_optional.1 0 10 5 (by norm_num) (by norm_num)
  · exact roundtrip_integer_and_optional.2.1 255 7 (by norm_num)
  · exact roundtrip_integer_and_optional.2.2 Int (signedIntegerTraits 0 10)
      (fun v => 0 ≤ v ∧ v ≤ 10)
      (fun x hx => roundtrip_integer_and_optional.1 0 10 x hx.1 hx.2)
      (fun x _ => rfl) (some 5)
      (fun x hx => by cases hx; exact ⟨by norm_num, by norm_num⟩)

/-! ### Claim C4: element error propagation through containers -/

/-- The back insertable loop propagates the first failing element error
unchanged (code and context) past any converting prefix. -/
theorem backInsertableLoop_propagates {α : Type}
    (e : JValue → Except ConvErr α) (pre : List JValue) (x : JValue)
    (rest : List JValue) (err : ConvErr)
    (hpre : ∀ y ∈ pre, isOkE (e y) = true) (hx : e x = .error err) :
    backInsertableLoop e (pre ++ x :: rest) = .error err := by
  induction pre with
  | nil => simp [backInsertableLoop, hx]
  | cons y ys ih =>
    have hy : isOkE (e y) = true := hpre y (by simp)
    cases hey : e y with
    | error e2 => rw [hey] at hy; simp [isOkE] at hy
    | ok v =>
      simp only [List.cons_append, backInsertableLoop, hey]
      simp [ih (fun z hz => hpre z (by simp [hz]))]

/-- The byte container loop turns any element failure into the generic
`not_vector` error. -/
theorem byteBackInsertableLoop_anyFail {α : Type}
    (e : JValue → Except ConvErr α) (l : List JValue)
    (h : ∃ x ∈ l, isOkE (e x) = false) :
    byteBackInsertableLoop e l = .error ⟨.notVector, ""⟩ := by
  induction l with
  | nil => simp at h
  | cons y ys ih =>
    cases hey : e y with
    | error e2 => simp [byteBackInsertableLoop, hey]
    | ok v =>
      obtain ⟨x, hmem, hfail⟩ := h
      rcases List.mem_cons.mp hmem with hxy | hmem2
      · subst hxy; rw [hey] at hfail; simp [isOkE] at hfail
      · simp only [byteBackInsertableLoop, hey]
        rw [ih ⟨x, hmem2, hfail⟩]

/-- The front insertable loop turns any element failure into the generic
`not_vector` error, for every accumulator. -/
theorem frontInsertableLoop_anyFail {α : Type}
    (e : JValue → Except ConvErr α) (l : List JValue)
    (h : ∃ x ∈ l, isOkE (e x) = false) :
    ∀ acc : List α, frontInsertableLoop e l acc = .error ⟨.notVector, ""⟩ := by
  induction l with
  | nil => simp at h
  | cons y ys ih =>
    intro acc
    cases hey : e y with
    | error e2 => simp [frontInsertableLoop, hey]
    | ok v =>
      obtain ⟨x, hmem, hfail⟩ := h
      rcases List.mem_cons.mp hmem with hxy | hmem2
      · subst hxy; rw [hey] at hfail; simp [isOkE] at hfail
      · simp only [frontInsertableLoop, hey]
        exact ih ⟨x, hmem2, hfail⟩ (v :: acc)

/-- The indexed array loop (std::array and std::valarray) turns any element
failure into the generic `not_array` error. -/
theorem indexedArrayLoop_anyFail {α : Type}
    (e : JValue → Except ConvErr α) (l : List JValue)
    (h : ∃ x ∈ l, isOkE (e x) = false) :
    indexedArrayLoop e l = .error ⟨.notArray, ""⟩ := by
  induction l with
  | nil => simp at h
  | cons y ys ih =>
    cases hey : e y with
    | error e2 => simp [indexedArrayLoop, hey]
    | ok v =>
      obtain ⟨x, hmem, hfail⟩ := h
      rcases List.mem_cons.mp hmem with hxy | hmem2
      · subst hxy; rw [hey] at hfail; simp [isOkE] at hfail
      · simp only [indexedArrayLoop, hey]
        rw [ih ⟨x, hmem2, hfail⟩]

/-- Element conversion used by the C4 counterexample: fails with an element
specific error code and context on every input. -/
def cexElemConv : JValue → Except ConvErr Int :=
  fun _ => .error ⟨.conversionFailed, ("elem")⟩

/-- Counterexample to C4 as stated: for the insertable only container entry
(for instance `std::set`), an element failing with
`(conversion_failed, "elem")` makes `try_as` fail with the generic
`(not_vector, "")`, not with the element error. -/
theorem container_element_error_cex :
    insertableTryAs cexElemConv (.array [.null .noTag] .noTag)
        = .error ⟨.notVector, ""⟩
    ∧ cexElemConv (.null .noTag) = .error ⟨.conversionFailed, ("elem")⟩
    ∧ ConvErr.mk .notVector "" ≠ ConvErr.mk .conversionFailed ("elem") := by
  refine ⟨rfl, rfl, by decide⟩

/-- C4 as amended.  Only the back insertable (non byte) container entry
propagates the failing element error with its code and context; the
insertable only and front insertable entries replace any element failure by
the generic `not_vector` error, and the `std::array` and `std::valarray`
entries by the generic `not_array` error. -/
theorem container_element_error_amended {α : Type}
    (eTryAs : JValue → Except ConvErr α) (items : List JValue)
    (tag : SemanticTag) :
    (∀ pre x rest err, items = pre ++ x :: rest →
      (∀ y ∈ pre, isOkE (eTryAs y) = true) → eTryAs x = .error err →
      backInsertableTryAs eTryAs (.array items tag) = .error err)
    ∧ ((∃ x ∈ items, isOkE (eTryAs x) = false) →
      insertableTryAs eTryAs (.array items tag) = .error ⟨.notVector, ""⟩
      ∧ frontInsertableTryAs eTryAs (.array items tag)
          = .error ⟨.notVector, ""⟩
      ∧ valarrayTryAs eTryAs (.array items tag) = .error ⟨.notArray, ""⟩
      ∧ stdArrayTryAs eTryAs items.length (.array items tag)
          = .error ⟨.notArray, ""⟩) := by
  constructor
  · intro pre x rest err hitems hpre hx
    subst hitems
    simpa [backInsertableTryAs] using
      backInsertableLoop_propagates eTryAs pre x rest err hpre hx
  · intro hfail
    refine ⟨?_, ?_, ?_, ?_⟩
    · simpa [insertableTryAs] using
        byteBackInsertableLoop_anyFail eTryAs items hfail
    · have hfail2 : ∃ x ∈ items.reverse, isOkE (eTryAs x) = false := by
        obtain ⟨x, hmem, hf⟩ := hfail
        exact ⟨x, List.mem_reverse.mpr hmem, hf⟩
      simpa [frontInsertableTryAs] using
        frontInsertableLoop_anyFail eTryAs items.reverse hfail2 []
    · simpa [valarrayTryAs] using
        indexedArrayLoop_anyFail eTryAs items hfail
    · simp only [stdArrayTryAs, JValue.size, JValue.elems]
      rw [if_neg (by simp)]
      exact indexedArrayLoop_anyFail eTryAs items hfail

/-- Witness for C4 as amended: source array `[1, "x"]` with the integer
element conversion; the first element converts, the second fails. -/
theorem container_element_error_amended_witness :
    backInsertableTryAs (tryAsIntegerSigned (-5) 5)
        (.array [.int64 1 .noTag, .str ("x") .noTag] .noTag)
      = .error ⟨.conversionFailed, ""⟩
    ∧ insertableTryAs (tryAsIntegerSigned (-5) 5)
        (.array [.int64 1 .noTag, .str ("x") .noTag] .noTag)
      = .error ⟨.notVector, ""⟩
    ∧ frontInsertableTryAs (tryAsIntegerSigned (-5) 5)
        (.array [.int64 1 .noTag, .str ("x") .noTag] .noTag)
      = .error ⟨.notVector, ""⟩
    ∧ valarrayTryAs (tryAsIntegerSigned (-5) 5)
        (.array [.int64 1 .noTag, .str ("x") .noTag] .noTag)
      = .error ⟨.notArray, ""⟩ := by
  have hbase := container_element_error_amended (tryAsIntegerSigned (-5) 5)
    [.int64 1 .noTag, .str ("x") .noTag] .noTag
  have hfail : ∃ x ∈ [JValue.int64 1 .noTag, JValue.str ("x") .noTag],
      isOkE (tryAsIntegerSigned (-5) 5 x) = false :=
    ⟨.str ("x") .noTag, by simp, by decide⟩
  have h2 := hbase.2 hfail
  refine ⟨?_, h2.1, h2.2.1, h2.2.2.1⟩
  exact hbase.1 [.int64 1 .noTag] (.str ("x") .noTag) []
    ⟨.conversionFailed, ""⟩ rfl
    (by intro y hy; simp at hy; subst hy; decide) (by decide)

/-! ### Claim C3: missing mandatory member -/

/-- The declared fields starting at index `idx` all pass (in the sense of
`fieldPasses`): the generated member loop proceeds past every one of them. -/
def passesFrom {V : Type} (numMandatory : Nat) (j : JValue) :
    Nat → List (MemberField V) → Prop
  | _, [] => True
  | idx, f :: rest =>
    fieldPasses numMandatory idx j f ∧ passesFrom numMandatory j (idx + 1) rest

/-- Loop lemma for C3: past a passing prefix, the first absent mandatory
member aborts the generated loop with `missing_required_member` and the
context naming that member. -/
theorem aggTryAsLoop_missing {V : Type} (C : String) (M : Nat) (j : JValue)
    (name : String) (conv : JValue → Except ConvErr V)
    (rest : List (MemberField V)) :
    ∀ (pre : List (MemberField V)) (idx : Nat) (acc : List (Option V)),
    passesFrom M j idx pre →
    idx + pre.length < M →
    j.findMember name = Option.none →
    aggTryAsLoop C M j idx (pre ++ ⟨name, conv⟩ :: rest) acc =
      .error ⟨.missingRequiredMember, C ++ (": ") ++ name⟩ := by
  intro pre
  induction pre with
  | nil =>
    intro idx acc _ hmand habsent
    simp only [List.nil_append, aggTryAsLoop, tryGetMember, habsent]
    rw [if_pos (by simpa using hmand)]
  | cons f fs ih =>
    intro idx acc hpasses hmand habsent
    obtain ⟨hf, hfs⟩ := hpasses
    rcases hf with ⟨v, hv⟩ | ⟨hopt, _⟩
    · simp only [List.cons_append, aggTryAsLoop, hv]
      refine ih (idx + 1) (some v :: acc) hfs ?_ habsent
      simp only [List.length_cons] at hmand
      omega
    · exfalso
      simp only [List.length_cons] at hmand
      omega

/-- The aggregate of the C3 counterexample: class `Book` with two mandatory
integer members `a` and `b` (`JSONCONS_N_MEMBER_TRAITS(Book, 2, a, b)`). -/
def cexAggSpec : AggSpec Int where
  className := "Book"
  fields := [⟨("a"), tryAsIntegerSigned (-100) 100⟩,
    ⟨("b"), tryAsIntegerSigned (-100) 100⟩]
  numMandatory := 2

/-- The source object of the C3 counterexample: the mandatory member `a` is
present but holds a string that fails integer conversion, and the mandatory
member `b` is absent. -/
def cexAggJson : JValue := .object [(("a"), .str ("x") .noTag)] .noTag

/-- Counterexample to C3 as stated: a source object from which the mandatory
member `b` is absent, yet `try_as` fails with `conversion_failed` naming the
earlier member `a` (the present but ill typed member preempts the missing
member error). -/
theorem aggregate_missing_member_cex :
    aggTryAs cexAggSpec cexAggJson = .error ⟨.conversionFailed, ("Book: a")⟩
    ∧ cexAggJson.findMember ("b") = Option.none
    ∧ ConvErr.mk .conversionFailed ("Book: a")
        ≠ ConvErr.mk .missingRequiredMember ("Book: b") := by
  refine ⟨by decide, rfl, by decide⟩

/-- C3 as amended.  For an aggregate declared with a mandatory count split
point, `try_as` of a source object fails with `missing_required_member` and
context `ClassName: fieldName` naming the first absent mandatory field,
provided every field declared before it passes (is present and converts, or
is optional and absent).  (Without that proviso an earlier failing field
reports its own error first, as the counterexample shows.) -/
theorem aggregate_missing_member_amended {V : Type} (spec : AggSpec V)
    (j : JValue) (pre rest : List (MemberField V)) (name : String)
    (conv : JValue → Except ConvErr V)
    (hfields : spec.fields = pre ++ ⟨name, conv⟩ :: rest)
    (hobj : j.isObject = true)
    (hmand : pre.length < spec.numMandatory)
    (habsent : j.findMember name = Option.none)
    (hpasses : passesFrom spec.numMandatory j 0 pre) :
    aggTryAs spec j =
      .error ⟨.missingRequiredMember, spec.className ++ (": ") ++ name⟩ := by
  simp only [aggTryAs, hobj, Bool.not_eq_true, if_neg, hfields]
  rw [if_neg (by simp [hobj])]
  exact aggTryAsLoop_missing spec.className spec.numMandatory j name conv rest
    pre 0 [] hpasses (by simpa using hmand) habsent

/-- Witness for C3 as amended: class `Rec` with mandatory members `a`, `b` and
optional member `c`; the source object holds a valid `a` and lacks `b`. -/
theorem aggregate_missing_member_amended_witness :
    aggTryAs
      (AggSpec.mk ("Rec")
        [⟨("a"), tryAsIntegerSigned (-100) 100⟩,
          ⟨("b"), tryAsIntegerSigned (-100) 100⟩,
          ⟨("c"), tryAsIntegerSigned (-100) 100⟩] 2)
      (.object [(("a"), .int64 7 .noTag)] .noTag)
      = .error ⟨.missingRequiredMember, ("Rec: b")⟩ := by
  have h := aggregate_missing_member_amended
    (AggSpec.mk ("Rec")
      [⟨("a"), tryAsIntegerSigned (-100) 100⟩,
        ⟨("b"), tryAsIntegerSigned (-100) 100⟩,
        ⟨("c"), tryAsIntegerSigned (-100) 100⟩] 2)
    (.object [(("a"), .int64 7 .noTag)] .noTag)
    [⟨("a"), tryAsIntegerSigned (-100) 100⟩]
    [⟨("c"), tryAsIntegerSigned (-100) 100⟩]
    ("b") (tryAsIntegerSigned (-100) 100) rfl rfl (by decide) rfl
    ⟨Or.inl ⟨7, by decide⟩, trivial⟩
  simpa using h

/-! ### Claim C5: enumeration empty string rule -/

/-- Counterexample to C5 as stated: for an enumeration whose table maps the
value 0 (here to the name `zero`) and maps no enumerator to the empty string,
`JSONCONS_ENUM_TRAITS` `try_as` of the empty string fails with
`conversion_failed` instead of succeeding with the zero valued enumerator. -/
theorem enum_empty_string_cex :
    findByName [(0, ("zero")), (1, ("one"))] ("") = Option.none
    ∧ enumTryAs [(0, ("zero")), (1, ("one"))] ("E") (.str ("") .noTag)
        = .error ⟨.conversionFailed, ("E")⟩ := by
  refine ⟨by decide, by decide⟩

/-- C5 as amended.  For both enumeration registration forms, `try_as` of the
empty string keys on whether the value initialized enumerator value
`enum_type()` (0) occurs in the declared table, not on whether the empty
string is a mapped name:
with the zero value absent, both forms yield the zero enumerator;
with the zero value present, both forms yield the enumerator mapped to the
empty string when there is one, and otherwise `JSONCONS_ENUM_TRAITS` fails
with `conversion_failed` while `JSONCONS_ENUM_NAME_TRAITS` still yields the
zero enumerator.  Any other string absent from the name table fails with
`conversion_failed` under both forms. -/
theorem enum_empty_string_amended (table : EnumTable) (n : String)
    (t : SemanticTag) :
    (noZeroValue table = true →
      enumTryAs table n (.str ("") t) = .ok 0
      ∧ enumNameTryAs table n (.str ("") t) = .ok 0)
    ∧ (noZeroValue table = false →
      (∀ p, findByName table ("") = some p →
        enumTryAs table n (.str ("") t) = .ok p.1
        ∧ enumNameTryAs table n (.str ("") t) = .ok p.1)
      ∧ (findByName table ("") = Option.none →
        enumTryAs table n (.str ("") t) = .error ⟨.conversionFailed, n⟩
        ∧ enumNameTryAs table n (.str ("") t) = .ok 0))
    ∧ (∀ s, s ≠ ("") → findByName table s = Option.none →
      enumTryAs table n (.str s t) = .error ⟨.conversionFailed, n⟩
      ∧ enumNameTryAs table n (.str s t) = .error ⟨.conversionFailed, n⟩) := by
  refine ⟨?_, ?_, ?_⟩
  · intro h
    constructor
    · simp [enumTryAs, enumIs, h]
    · simp [enumNameTryAs, h]
  · intro h
    constructor
    · intro p hp
      constructor
      · simp [enumTryAs, enumIs, h, hp]
      · simp [enumNameTryAs, h, hp]
    · intro hnone
      constructor
      · simp [enumTryAs, enumIs, h, hnone]
      · simp [enumNameTryAs, h, hnone]
  · intro s hs hnone
    constructor
    · simp [enumTryAs, enumIs, hs, hnone]
    · simp [enumNameTryAs, hs, hnone]

/-- Witness for C5 as amended, on the table mapping 0 to `zero` and 1 to
`one` (zero value present, empty string unmapped) and on the unmapped
nonempty string `two`. -/
theorem enum_empty_string_amended_witness :
    (enumTryAs [(0, ("zero")), (1, ("one"))] ("E") (.str ("") .noTag)
        = .error ⟨.conversionFailed, ("E")⟩
      ∧ enumNameTryAs [(0, ("zero")), (1, ("one"))] ("E") (.str ("") .noTag)
        = .ok 0)
    ∧ (enumTryAs [(0, ("zero")), (1, ("one"))] ("E") (.str ("two") .noTag)
        = .error ⟨.conversionFailed, ("E")⟩
      ∧ enumNameTryAs [(0, ("zero")), (1, ("one"))] ("E") (.str ("two") .noTag)
        = .error ⟨.conversionFailed, ("E")⟩) := by
  constructor
  · exact ((enum_empty_string_amended [(0, ("zero")), (1, ("one"))] ("E")
      .noTag).2.1 (by decide)).2 (by decide)
  · exact (enum_empty_string_amended [(0, ("zero")), (1, ("one"))] ("E")
      .noTag).2.2 ("two") (by decide) (by decide)

/-! ### Claim C6: polymorphic closed set dispatch -/

/-- Loop lemma: the polymorphic decode loop returns the first derived entry
whose `try_as` succeeds, with the index offset by the starting position. -/
theorem polyTryAsLoop_first {V : Type} (j : JValue) (d : DerivedEntry V)
    (rest : List (DerivedEntry V)) (v : V) :
    ∀ (pre : List (DerivedEntry V)) (i : Nat),
    (∀ d2 ∈ pre, isOkE (d2.tryAs j) = false) → d.tryAs j = .ok v →
    polyTryAsLoop (pre ++ d :: rest) i j = .ok (some (i + pre.length, v)) := by
  intro pre
  induction pre with
  | nil =>
    intro i _ hd
    simp [polyTryAsLoop, hd]
  | cons d2 ds ih =>
    intro i hpre hd
    have h2 : isOkE (d2.tryAs j) = false := hpre d2 (by simp)
    cases he : d2.tryAs j with
    | ok w => rw [he] at h2; simp [isOkE] at h2
    | error err =>
      simp only [List.cons_append, polyTryAsLoop, he]
      have h3 := ih (i + 1) (fun z hz => hpre z (by simp [hz])) hd
      simp only [List.append_eq] at h3 ⊢
      rw [h3]
      simp only [List.length_cons]
      congr 3
      omega

/-- Loop lemma: when every derived entry fails, the polymorphic decode loop
returns the null pointer as a success. -/
theorem polyTryAsLoop_none {V : Type} (j : JValue) :
    ∀ (l : List (DerivedEntry V)) (i : Nat),
    (∀ d ∈ l, isOkE (d.tryAs j) = false) →
    polyTryAsLoop l i j = .ok Option.none := by
  intro l
  induction l with
  | nil => intro i _; simp [polyTryAsLoop]
  | cons d ds ih =>
    intro i h
    have h2 : isOkE (d.tryAs j) = false := h d (by simp)
    cases he : d.tryAs j with
    | ok w => rw [he] at h2; simp [isOkE] at h2
    | error err =>
      simp only [polyTryAsLoop, he]
      exact ih (i + 1) (fun z hz => h z (by simp [hz]))

/-- Loop lemma: the polymorphic encode loop emits via the first derived entry
whose `dynamic_cast` test accepts the runtime type. -/
theorem polyToJsonLoop_first {V : Type} (d : DerivedEntry V)
    (rest : List (DerivedEntry V)) (rt : Nat) (v : V) :
    ∀ pre : List (DerivedEntry V),
    (∀ d2 ∈ pre, d2.isRuntimeType rt = false) → d.isRuntimeType rt = true →
    polyToJsonLoop (pre ++ d :: rest) rt v = d.toJson v := by
  intro pre
  induction pre with
  | nil => intro _ hd; simp [polyToJsonLoop, hd]
  | cons d2 ds ih =>
    intro hpre hd
    have h2 : d2.isRuntimeType rt = false := hpre d2 (by simp)
    simp only [List.cons_append, polyToJsonLoop, h2]
    simpa using ih (fun z hz => hpre z (by simp [hz])) hd

/-- Loop lemma: when every `dynamic_cast` test rejects, the polymorphic encode
loop emits null. -/
theorem polyToJsonLoop_none {V : Type} (rt : Nat) (v : V) :
    ∀ l : List (DerivedEntry V),
    (∀ d ∈ l, d.isRuntimeType rt = false) →
    polyToJsonLoop l rt v = .null .noTag := by
  intro l
  induction l with
  | nil => intro _; simp [polyToJsonLoop]
  | cons d ds ih =>
    intro h
    have h2 : d.isRuntimeType rt = false := h d (by simp)
    simp only [polyToJsonLoop, h2]
    simpa using ih (fun z hz => h z (by simp [hz]))

/-- C6.  Polymorphic closed set dispatch: on an object Document Value,
`try_as` for the owning pointer to the registered base returns the first
declared derived type whose `try_as` succeeds, wrapped in the pointer, and the
null pointer when none succeeds; `to_json` emits null for the null pointer,
dynamic casts the pointee against each declared derived type in order and
emits via the first match, and emits null for an unlisted dynamic type. -/
theorem polymorphic_dispatch {V : Type} (ds : List (DerivedEntry V))
    (j : JValue) :
    (∀ pre d rest v, ds = pre ++ d :: rest → j.isObject = true →
      (∀ d2 ∈ pre, isOkE (d2.tryAs j) = false) → d.tryAs j = .ok v →
      polyTryAs ds j = .ok (some (pre.length, v)))
    ∧ (j.isObject = true → (∀ d ∈ ds, isOkE (d.tryAs j) = false) →
      polyTryAs ds j = .ok Option.none)
    ∧ polyToJson ds Option.none = .null .noTag
    ∧ (∀ pre d rest rt v, ds = pre ++ d :: rest →
      (∀ d2 ∈ pre, d2.isRuntimeType rt = false) → d.isRuntimeType rt = true →
      polyToJson ds (some (rt, v)) = d.toJson v)
    ∧ (∀ rt v, (∀ d ∈ ds, d.isRuntimeType rt = false) →
      polyToJson ds (some (rt, v)) = .null .noTag) := by
  refine ⟨?_, ?_, rfl, ?_, ?_⟩
  · intro pre d rest v hds hobj hpre hd
    subst hds
    simp only [polyTryAs, hobj]
    rw [if_neg (by simp)]
    simpa using polyTryAsLoop_first j d rest v pre 0 hpre hd
  · intro hobj hall
    simp only [polyTryAs, hobj]
    rw [if_neg (by simp)]
    exact polyTryAsLoop_none j ds 0 hall
  · intro pre d rest rt v hds hpre hd
    subst hds
    simpa [polyToJson] using polyToJsonLoop_first d rest rt v pre hpre hd
  · intro rt v hall
    simpa [polyToJson] using polyToJsonLoop_none rt v ds hall

/-- First derived entry of the C6 witness: accepts objects containing the
member `wings`, runtime type 0. -/
def cexDerivedA : DerivedEntry Int where
  tryAs j :=
    match j.findMember ("wings") with
    | some _ => .ok 1
    | Option.none => .error ⟨.missingRequiredMember, ("Bird: wings")⟩
  isRuntimeType rt := rt == 0
  toJson v := .int64 v .noTag

/-- Second derived entry of the C6 witness: accepts objects containing the
member `legs`, runtime type 1. -/
def cexDerivedB : DerivedEntry Int where
  tryAs j :=
    match j.findMember ("legs") with
    | some _ => .ok 2
    | Option.none => .error ⟨.missingRequiredMember, ("Mammal: legs")⟩
  isRuntimeType rt := rt == 1
  toJson v := .int64 (v + 10) .noTag

/-- Witness for C6 on two derived entries with disjoint member shapes: an
object matching only the second entry decodes to it; an object matching
neither decodes to the null pointer; encode of runtime type 1 emits via the
second entry; encode of an unlisted runtime type emits null. -/
theorem polymorphic_dispatch_witness :
    polyTryAs [cexDerivedA, cexDerivedB]
        (.object [(("legs"), .int64 4 .noTag)] .noTag) = .ok (some (1, 2))
    ∧ polyTryAs [cexDerivedA, cexDerivedB]
        (.object [(("fins"), .int64 2 .noTag)] .noTag) = .ok Option.none
    ∧ polyToJson [cexDerivedA, cexDerivedB] (some (1, 2)) = .int64 12 .noTag
    ∧ polyToJson [cexDerivedA, cexDerivedB] (some (7, 2)) = .null .noTag := by
  refine ⟨?_, ?_, ?_, ?_⟩
  · exact (polymorphic_dispatch [cexDerivedA, cexDerivedB]
      (.object [(("legs"), .int64 4 .noTag)] .noTag)).1 [cexDerivedA]
      cexDerivedB [] 2 rfl rfl
      (by intro d2 h2; simp at h2; subst h2; decide) (by decide)
  · exact (polymorphic_dispatch [cexDerivedA, cexDerivedB]
      (.object [(("fins"), .int64 2 .noTag)] .noTag)).2.1 rfl
      (by intro d2 h2; simp at h2; rcases h2 with h | h <;> subst h <;> decide)
  · exact (polymorphic_dispatch [cexDerivedA, cexDerivedB]
      (.object [] .noTag)).2.2.2.1 [cexDerivedA] cexDerivedB [] 1 2 rfl
      (by intro d2 h2; simp at h2; subst h2; decide) (by decide)
  · exact (polymorphic_dispatch [cexDerivedA, cexDerivedB]
      (.object [] .noTag)).2.2.2.2 7 2
      (by intro d2 h2; simp at h2; rcases h2 with h | h <;> subst h <;> decide)

/-! ### Claim C7: std::variant dispatch -/

/-- First alternative of the C7 counterexample: `is` accepts everything but
`try_as` always fails. -/
def cexAltFail : AltEntry Int where
  is _ := true
  tryAs _ := .error ⟨.conversionFailed, ""⟩

/-- Second alternative of the C7 counterexample: `is` accepts everything and
`try_as` succeeds with 42. -/
def cexAltOk : AltEntry Int where
  is _ := true
  tryAs _ := .ok 42

/-- Counterexample to C7 as stated: the second alternative both matches and
successfully extracts, yet `as_variant` fails with `not_variant`, because the
first alternative matched and its extraction failure is not recovered by
trying later alternatives. -/
theorem variant_dispatch_cex :
    asVariant [cexAltFail, cexAltOk] (.null .noTag)
        = .error ⟨.notVariant, ""⟩
    ∧ cexAltOk.is (.null .noTag) = true
    ∧ cexAltOk.tryAs (.null .noTag) = .ok 42
    ∧ cexAltFail.is (.null .noTag) = true := by
  refine ⟨by decide, by decide, by decide, by decide⟩

/-- Loop lemma: past a prefix of non matching alternatives, `as_variant`
resolves on the first alternative whose `is` accepts. -/
theorem asVariantLoop_first {V : Type} (j : JValue) (a : AltEntry V)
    (rest : List (AltEntry V)) :
    ∀ (pre : List (AltEntry V)) (i : Nat),
    (∀ a2 ∈ pre, a2.is j = false) → a.is j = true →
    asVariantLoop (pre ++ a :: rest) i j =
      (match a.tryAs j with
        | .ok v => .ok (i + pre.length, v)
        | .error _ => .error ⟨.notVariant, ""⟩) := by
  intro pre
  induction pre with
  | nil =>
    intro i _ ha
    simp only [List.nil_append, asVariantLoop, ha, if_pos]
    cases a.tryAs j <;> simp
  | cons a2 as ih =>
    intro i hpre ha
    have h2 : a2.is j = false := hpre a2 (by simp)
    simp only [List.cons_append, asVariantLoop, h2]
    have h3 := ih (i + 1) (fun z hz => hpre z (by simp [hz])) ha
    simp only [List.append_eq] at h3 ⊢
    rw [h3]
    cases a.tryAs j with
    | ok v =>
      simp only [List.length_cons]
      have h4 : i + 1 + as.length = i + (as.length + 1) := by omega
      rw [h4]
      simp
    | error e => simp

/-- Loop lemma: when no alternative matches, `as_variant` fails with
`not_variant`. -/
theorem asVariantLoop_none {V : Type} (j : JValue) :
    ∀ (l : List (AltEntry V)) (i : Nat), (∀ a ∈ l, a.is j = false) →
    asVariantLoop l i j = .error ⟨.notVariant, ""⟩ := by
  intro l
  induction l with
  | nil => intro i _; simp [asVariantLoop]
  | cons a as ih =>
    intro i h
    have h2 : a.is j = false := h a (by simp)
    simp only [asVariantLoop, h2]
    simpa using ih (i + 1) (fun z hz => h z (by simp [hz]))

/-- The `is_variant` recursion agrees with `List.any` over the alternatives. -/
theorem isVariant_any {V : Type} (j : JValue) :
    ∀ alts : List (AltEntry V),
    isVariant alts j = alts.any (fun a => a.is j) := by
  intro alts
  induction alts with
  | nil => simp [isVariant]
  | cons a as ih =>
    simp only [isVariant, List.any_cons]
    cases ha : a.is j <;> simp [ha, ih]

/-- C7 as amended.  `is` of the `std::variant` entry is true iff some
alternative accepts, tried in declared order.  `try_as` selects the first
alternative whose `is` accepts: it returns that alternative successfully
extracted, and fails with `not_variant` either when that alternative fails to
extract (later alternatives are not tried, as the counterexample shows) or
when no alternative accepts. -/
theorem variant_dispatch_amended {V : Type} (alts : List (AltEntry V))
    (j : JValue) :
    isVariant alts j = alts.any (fun a => a.is j)
    ∧ (∀ pre a rest, alts = pre ++ a :: rest →
      (∀ a2 ∈ pre, a2.is j = false) → a.is j = true →
      asVariant alts j =
        (match a.tryAs j with
          | .ok v => .ok (pre.length, v)
          | .error _ => .error ⟨.notVariant, ""⟩))
    ∧ ((∀ a ∈ alts, a.is j = false) →
      asVariant alts j = .error ⟨.notVariant, ""⟩) := by
  refine ⟨isVariant_any j alts, ?_, ?_⟩
  · intro pre a rest halts hpre ha
    subst halts
    have h := asVariantLoop_first j a rest pre 0 hpre ha
    simpa [asVariant] using h
  · intro hall
    exact asVariantLoop_none j alts 0 hall

/-- Witness for C7 as amended: the no match case on an alternative rejecting
everything, and the first match case where the matching alternative extracts
successfully. -/
theorem variant_dispatch_amended_witness :
    asVariant [AltEntry.mk (fun _ => false) (fun _ => .ok (0 : Int))]
        (.null .noTag) = .error ⟨.notVariant, ""⟩
    ∧ asVariant [cexAltOk] (.null .noTag) = .ok (0, 42)
    ∧ isVariant [cexAltOk] (.null .noTag)
        = [cexAltOk].any (fun a => a.is (.null .noTag)) := by
  refine ⟨?_, ?_, ?_⟩
  · exact (variant_dispatch_amended
      [AltEntry.mk (fun _ => false) (fun _ => .ok (0 : Int))]
      (.null .noTag)).2.2
      (by intro a ha; simp at ha; subst ha; rfl)
  · exact (variant_dispatch_amended [cexAltOk] (.null .noTag)).2.1 [] cexAltOk
      [] rfl (by intro a2 h2; simp at h2) (by decide)
  · exact (variant_dispatch_amended [cexAltOk] (.null .noTag)).1

/-! ### Claim C2: totality of try_as (code bug) -/

/-- The element conversion used by the C2 evaluation: a 64 bit style signed
integer extraction. -/
def cexIntConv : JValue → Except ConvErr Int := tryAsIntegerSigned (-100) 100

/-- C2 evaluated at its failing inputs: the map entry whose key type is not
constructible from a character buffer throws (the escaping `as<mapped_type>`
exception) on an object whose member value fails conversion, and throws on a
non object source (`object_range()` with no `is_object` check); the tuple
entry throws an out of range access on an array shorter than its arity and a
not an array access on a non array source.  Each outcome contradicts the
required totality of `try_as`, so the claim stands and the code is at fault. -/
theorem tryAs_totality_code_bug :
    mapSlowTryAs cexIntConv cexIntConv
        (.object [(("1"), .str ("x") .noTag)] .noTag) = .thrown .serError
    ∧ tupleTryAs [cexIntConv, cexIntConv] (.array [.int64 1 .noTag] .noTag)
        = .thrown .outOfRange
    ∧ mapSlowTryAs cexIntConv cexIntConv (.int64 0 .noTag)
        = .thrown .notAnObjectExn
    ∧ tupleTryAs [cexIntConv] (.str ("a") .noTag) = .thrown .notAnArrayExn := by
  refine ⟨by decide, by decide, by decide, by decide⟩

end JsonconsConv
